import Mathlib

/-!
Verification development for the rdfcon conversion engine.

The definitions below are a shallow embedding of the Python sources
(`rdfcon/utils.py`, `rdfcon/convert.py`, `rdfcon/custom_functions.py`).
External collaborators (the RDF store term validation, UUID generation,
date parsing, regular-expression splitting, the template engine) are
passed in as explicit function parameters, matching the specification's
treatment of them as black-box capabilities.
-/

namespace Rdfcon

/-!
Configuration values (`utils.merge` operates on YAML-derived Python
values: None, bools, ints, strings, lists and dicts).  Dicts are
modelled as association lists in insertion order, mirroring Python
dict iteration order.
-/

inductive Val where
  | vnull : Val
  | vbool : Bool → Val
  | vint : Int → Val
  | vstr : String → Val
  | vlist : List Val → Val
  | vdict : List (String × Val) → Val

/-- Python truthiness of a configuration value. -/
def truthy : Val → Bool
  | Val.vnull => false
  | Val.vbool b => b
  | Val.vint n => n != 0
  | Val.vstr s => s != ""
  | Val.vlist l => !l.isEmpty
  | Val.vdict d => !d.isEmpty

/-- Python `dict.get(k)`: first binding of the key, if any. -/
def lookupVal (d : List (String × Val)) (k : String) : Option Val :=
  match d with
  | [] => none
  | p :: rest => if p.1 = k then some p.2 else lookupVal rest k

/-- Scalar / list arm of one `utils.merge` loop iteration: the new
value when truthy, else the old value when truthy, else no binding. -/
def keepValue (old : Option Val) (nv : Val) : Option Val :=
  if truthy nv then some nv
  else
    match old with
    | some ov => if truthy ov then some ov else none
    | none => none

mutual

/-- One iteration of the `for k, new_value in new.items():` loop of
`utils.merge`: the binding the merged dict receives for key `k`, if
any (dict values merge recursively, otherwise `keepValue` decides). -/
def mergeOne (base : List (String × Val)) (k : String) (nv : Val) : Option Val :=
  match lookupVal base k, nv with
  | some (Val.vdict od), Val.vdict nd => some (Val.vdict (merge od nd))
  | old, _ => keepValue old nv

/-- Embedding of `utils.merge(base, new)`: iterates over `new.items()`
only, so the result binds only keys of `new`. -/
def merge (base : List (String × Val)) : List (String × Val) → List (String × Val)
  | [] => []
  | (k, nv) :: rest =>
    match mergeOne base k nv with
    | some v => (k, v) :: merge base rest
    | none => merge base rest

end

/-- Per-key description of the merge policy the code actually
implements (used to state the amended form of the merge claim): the
result binds exactly the keys of the later fragment for which
`mergeOne` determines a value. -/
def mergeSpec (base new : List (String × Val)) (k : String) : Option Val :=
  match lookupVal new k with
  | none => none
  | some nv => mergeOne base k nv

/-!
RDF terms and graphs.  An rdflib graph is a set of (subject,
predicate, object) statements; `Node` covers the three rdflib term
kinds the engine produces (IRIs, literals with an optional datatype,
blank nodes).
-/

inductive Node where
  | iri : String → Node
  | lit : String → Option String → Node
  | bnode : Nat → Node
deriving DecidableEq

abbrev Triple := Node × Node × Node

abbrev RGraph := Finset Triple

/-- SPARQL `str(?o)` as rdflib evaluates it over the terms the engine
produces: the IRI text, a literal's lexical form, a blank node's
(never empty) label. -/
def strVal : Node → String
  | Node.iri s => s
  | Node.lit v _ => v
  | Node.bnode n => "N" ++ toString n

def objOf (t : Triple) : Node := t.2.2

def subjOf (t : Triple) : Node := t.1

/-- Sentinel IRI substituted for bare prefixes by
`templated_expressions` before parsing. -/
def nullIri : Node := Node.iri "http://null"

def isBlank : Node → Bool
  | Node.bnode _ => true
  | _ => false

/-- Step one of the post-parse pruning in `templated_expressions`:
remove every statement whose object has an empty string value
(the SPARQL query `filter(str(?o) = '')`). -/
def pruneEmptyLiterals (g : RGraph) : RGraph :=
  g.filter (fun t => ¬ strVal (objOf t) = "")

/-- Step two: remove every statement that mentions the sentinel IRI
`<http://null>` in any position (`URIRef("http://null") in triple`). -/
def pruneNull (g : RGraph) : RGraph :=
  g.filter (fun t => ¬ (t.1 = nullIri ∨ t.2.1 = nullIri ∨ t.2.2 = nullIri))

/-- Statements of `g` whose object is a blank node with no outgoing
statement in `g` (the `empty_bnode_query` SPARQL query; removing a
binding `?o` removes all statements `(None, None, o)`). -/
def emptyBnodeTriples (g : RGraph) : RGraph :=
  g.filter (fun t => isBlank (objOf t) = true ∧ ∀ u ∈ g, ¬ subjOf u = objOf t)

/-- Step three: repeatedly remove statements pointing at blank nodes
with no outgoing statements, until the query returns nothing (the
`while empty_bnodes:` loop). -/
def pruneBnodes (g : RGraph) : RGraph :=
  if h : emptyBnodeTriples g = ∅ then g
  else pruneBnodes (g \ emptyBnodeTriples g)
termination_by g.card
decreasing_by
  exact Finset.card_lt_card
    (Finset.sdiff_ssubset (Finset.filter_subset _ g)
      (Finset.nonempty_iff_ne_empty.mpr h))

/-- The whole post-parse pruning pass of `templated_expressions`, in
source order: empty literals, then sentinel-IRI statements, then the
blank-node fixed-point loop. -/
def prune (g : RGraph) : RGraph :=
  pruneBnodes (pruneNull (pruneEmptyLiterals g))

/-!
External collaborator capabilities, passed to the embedded functions
as explicit parameters:
`validIri s` models `URIRef(s).n3()` succeeding (no exception);
`uuid5` models `str(uuid.uuid5(uuid.NAMESPACE_DNS, value))`;
`parseDate v fmt` models `datetime.strptime(v, fmt).isoformat()`,
`none` when `strptime` raises;
`regexSplit pat s` models `re.compile(pat).split(s)`.
-/

structure Externals where
  validIri : String → Bool
  uuid5 : String → String
  parseDate : String → String → Option String
  regexSplit : String → String → List String

/-- Python `s.strip(chars)`: drop the given characters from both ends. -/
def stripChars (s : String) (cs : List Char) : String :=
  let l := s.data.dropWhile (fun c => cs.contains c)
  String.mk ((l.reverse.dropWhile (fun c => cs.contains c)).reverse)

/-- Python `s.strip("<>")` as used on candidate IRI strings. -/
def stripAngles (s : String) : String :=
  stripChars s ['<', '>']

/-- Python `s.strip()`: whitespace trimmed from both ends (the claims
only involve ASCII whitespace, which `Char.isWhitespace` covers). -/
def pyTrim (s : String) : String :=
  String.mk (((s.data.dropWhile Char.isWhitespace).reverse.dropWhile Char.isWhitespace).reverse)

/-- Helper for `pySplit`: leftmost non-overlapping split of a
character list on a non-empty separator; the fuel argument (always at
least the list length, so never exhausted) makes the recursion
structural. -/
def pySplitAux (sep : List Char) : Nat → List Char → List Char → List (List Char)
  | _, [], acc => [acc.reverse]
  | 0, l, acc => [acc.reverse ++ l]
  | fuel + 1, c :: cs, acc =>
    if sep.isPrefixOf (c :: cs) then
      acc.reverse :: pySplitAux sep fuel (List.drop sep.length (c :: cs)) []
    else pySplitAux sep fuel cs (c :: acc)

/-- Python `s.split(sep)` for a non-empty separator. -/
def pySplit (s sep : String) : List String :=
  (pySplitAux sep.data s.data.length s.data []).map String.mk

def rdfType : Node := Node.iri "http://www.w3.org/1999/02/22-rdf-syntax-ns#type"

/-- Embedding of `get_col_values` lines 67 to 79: minting an IRI in a
configured namespace, optionally lower-cased and optionally replaced
by a name-based UUID, then validated via `URIRef(ns + iri_str).n3()`. -/
def mintNamespacedIri (ext : Externals) (iriStr ns : String)
    (asUuid ignoreCase : Bool) : Except String Node :=
  let s1 := if ignoreCase then iriStr.toLower else iriStr
  let s2 := if asUuid then ext.uuid5 s1 else s1
  if ext.validIri (ns ++ s2) then Except.ok (Node.iri (ns ++ s2))
  else Except.error ("Could not interpret " ++ s2 ++ " as an IRI using namespace " ++ ns)

/-- Work done by one iteration of the `for value in values:` loop of
`get_col_values`: `none` when the candidate is skipped, otherwise the
emitted value together with the label / rdf:type statements added to
the side graph. -/
def processColValue (ext : Externals) (asIri : Bool) (datatype : Option String)
    (datestr : Option String) (ns : Option String) (asUuid ignoreCase : Bool)
    (label ttype : Option String) (value : String) :
    Except String (Option Node × RGraph) :=
  let stripped := pyTrim value
  if stripped = "" then Except.ok (none, ∅)
  else if asIri then
    let iriStr := stripAngles stripped
    let minted : Except String Node :=
      match ns with
      | none =>
        if ext.validIri iriStr then Except.ok (Node.iri iriStr)
        else Except.error ("Could not interpret " ++ iriStr ++ " as an IRI")
      | some nsv => mintNamespacedIri ext iriStr nsv asUuid ignoreCase
    match minted with
    | Except.error e => Except.error e
    | Except.ok n =>
      let gLabel : RGraph :=
        match label with
        | some lb => if lb ≠ "" then {(n, Node.iri lb, Node.lit value datatype)} else ∅
        | none => ∅
      let gType : RGraph :=
        match ttype with
        | some ty => if ty ≠ "" then {(n, rdfType, Node.iri ty)} else ∅
        | none => ∅
      Except.ok (some n, gLabel ∪ gType)
  else
    match datestr with
    | some ds =>
      if ds ≠ "" then
        match ext.parseDate stripped ds with
        | some iso => Except.ok (some (Node.lit iso datatype), ∅)
        | none => Except.ok (none, ∅)
      else Except.ok (some (Node.lit stripped datatype), ∅)
    | none => Except.ok (some (Node.lit stripped datatype), ∅)

/-- The `for value in values:` loop of `get_col_values`, accumulating
emitted values in order and unioning the side graphs; the first raised
error aborts the call. -/
def processValues (ext : Externals) (asIri : Bool) (datatype : Option String)
    (datestr : Option String) (ns : Option String) (asUuid ignoreCase : Bool)
    (label ttype : Option String) : List String → Except String (List Node × RGraph)
  | [] => Except.ok ([], ∅)
  | v :: vs =>
    match processColValue ext asIri datatype datestr ns asUuid ignoreCase label ttype v with
    | Except.error e => Except.error e
    | Except.ok (o, gadd) =>
      match processValues ext asIri datatype datestr ns asUuid ignoreCase label ttype vs with
      | Except.error e => Except.error e
      | Except.ok (l, g) => Except.ok (o.toList ++ l, gadd ∪ g)

/-- Embedding of `convert.get_col_values`: early return on an
all-whitespace cell, split on the separator (regex or literal,
skipped when the separator is falsy), then process each candidate. -/
def get_col_values (ext : Externals) (col : String) (separator : Option String)
    (regex asIri : Bool) (datatype : Option String) (datestr : Option String)
    (ns : Option String) (asUuid ignoreCase : Bool) (label ttype : Option String) :
    Except String (List Node × RGraph) :=
  if pyTrim col = "" then Except.ok ([], ∅)
  else
    let values : List String :=
      match separator with
      | some sep =>
        if sep ≠ "" then (if regex then ext.regexSplit sep col else pySplit col sep)
        else [col]
      | none => [col]
    processValues ext asIri datatype datestr ns asUuid ignoreCase label ttype values

/-!
Memoised UUID minting.  `utils.get_uuid` is wrapped in
`functools.lru_cache`; each worker process owns its own cache, so the
cache contents at call time differ between runs and workers.  The
cache is modelled explicitly as an association list (eviction does not
change returned values and is omitted).
-/

abbrev UuidCache := List (String × String)

/-- Embedding of the `lru_cache`-wrapped `utils.get_uuid`: answer from
the cache when present, otherwise compute `uuid5` and record it. -/
def get_uuid (uuid5 : String → String) (cache : UuidCache) (value : String) :
    String × UuidCache :=
  match cache.find? (fun p => p.1 == value) with
  | some p => (p.2, cache)
  | none => (uuid5 value, (value, uuid5 value) :: cache)

/-- A cache state reachable by a worker: every entry was produced by
`uuid5` itself. -/
def WfCache (uuid5 : String → String) (cache : UuidCache) : Prop :=
  ∀ p ∈ cache, p.2 = uuid5 p.1

/-- The namespaced IRI minting of `get_col_values` lines 67 to 79 as a
worker actually executes it, reading the UUID through that worker's
memoisation cache and returning the updated cache. -/
def mintNamespacedIriCached (ext : Externals) (cache : UuidCache)
    (iriStr ns : String) (asUuid ignoreCase : Bool) :
    Except String Node × UuidCache :=
  let s1 := if ignoreCase then iriStr.toLower else iriStr
  let pr := if asUuid then get_uuid ext.uuid5 cache s1 else (s1, cache)
  (if ext.validIri (ns ++ pr.1) then Except.ok (Node.iri (ns ++ pr.1))
   else Except.error ("Could not interpret " ++ pr.1 ++ " as an IRI using namespace " ++ ns),
   pr.2)

/-!
The resolved mapping specification and the per-row conversion
(`convert.py`).  Fields mirror the cerberus-normalised spec dict; the
`namespace` key is called `nspace` because `namespace` is a Lean
keyword, and a Column Rule's `type` key is called `ttype` as in the
source's local variable.
-/

structure ColRule where
  column : String
  predicate : String
  datatype : Option String
  datestr : Option String
  separator : Option String
  regex : Bool
  asIri : Bool
  nspace : Option String
  asUuid : Bool
  ignoreCase : Bool
  label : Option String
  ttype : Option String

structure Spec where
  identifier : Option String
  columns : List ColRule
  types : List String
  template : Option String
  nspace : Option String
  maxGraphSizeMb : Option Nat
  sizeCheckFrequency : Nat

/-- Python truthiness of an optional string (None and the empty string
are falsy). -/
def optStrTruthy : Option String → Bool
  | some s => s ≠ ""
  | none => false

/-- Model of `rdflib.Graph.add` for the statements `row_to_graph`
builds: rdflib asserts each term is a Node, and the subject the caller
passes may be Python `None` (when the identifier cell was empty), in
which case `add` raises `AssertionError`. -/
def graphAddOpt (g : RGraph) (s : Option Node) (p o : Node) : Except String RGraph :=
  match s with
  | some sn => Except.ok (insert (sn, p, o) g)
  | none => Except.error "Subject None must be an rdflib term"

/-- Embedding of `convert.get_iri_for_row`: `None` when there is no
identifier column or its cell is empty; namespace concatenation when a
subject namespace is configured; otherwise the cell itself must be a
valid IRI after stripping angle brackets. -/
def get_iri_for_row (ext : Externals) (row : List String) (idcol : Option Nat)
    (ns : Option String) : Except String (Option Node) :=
  match idcol with
  | none => Except.ok none
  | some i =>
    match row.get? i with
    | none => Except.error "IndexError: list index out of range"
    | some cell =>
      if cell = "" then Except.ok none
      else
        match ns with
        | some nsv =>
          if nsv ≠ "" then Except.ok (some (Node.iri (nsv ++ cell)))
          else
            if ext.validIri (stripAngles cell) then
              Except.ok (some (Node.iri (stripAngles cell)))
            else Except.error ("Could not interpret " ++ cell ++ " as an IRI")
        | none =>
          if ext.validIri (stripAngles cell) then
            Except.ok (some (Node.iri (stripAngles cell)))
          else Except.error ("Could not interpret " ++ cell ++ " as an IRI")

/-- The type-declaration loop of `row_to_graph`: one `g.add((iri,
RDF.type, type))` per declared type. -/
def addTypes (iri : Option Node) (types : List String) (g : RGraph) :
    Except String RGraph :=
  match types with
  | [] => Except.ok g
  | t :: ts =>
    match graphAddOpt g iri rdfType (Node.iri t) with
    | Except.error e => Except.error e
    | Except.ok g2 => addTypes iri ts g2

/-- The `for col_value in col_values:` loop of `row_to_graph`. -/
def addColValues (iri : Option Node) (predicate : String) (vals : List Node)
    (g : RGraph) : Except String RGraph :=
  match vals with
  | [] => Except.ok g
  | v :: vs =>
    match graphAddOpt g iri (Node.iri predicate) v with
    | Except.error e => Except.error e
    | Except.ok g2 => addColValues iri predicate vs g2

/-- The column-conversion loop of `row_to_graph`: look up the rule's
column in the header, fetch the cell, run `get_col_values`, add each
value under the rule's predicate, union the side graph. -/
def processColdefs (ext : Externals) (headers row : List String) (iri : Option Node) :
    List ColRule → RGraph → Except String RGraph
  | [], g => Except.ok g
  | cd :: cds, g =>
    match headers.indexOf? cd.column with
    | none => Except.error ("ValueError: " ++ cd.column ++ " is not in list")
    | some ci =>
      match row.get? ci with
      | none => Except.error "IndexError: list index out of range"
      | some cell =>
        match get_col_values ext cell cd.separator cd.regex cd.asIri cd.datatype
            cd.datestr cd.nspace cd.asUuid cd.ignoreCase cd.label cd.ttype with
        | Except.error e => Except.error e
        | Except.ok (vals, gg) =>
          match addColValues iri cd.predicate vals g with
          | Except.error e => Except.error e
          | Except.ok g2 => processColdefs ext headers row iri cds (g2 ∪ gg)

/-- Embedding of `convert.row_to_graph`: type declarations first, then
the column conversions. -/
def row_to_graph (ext : Externals) (headers : List String) (spec : Spec)
    (iri : Option Node) (row : List String) : Except String RGraph :=
  match addTypes iri spec.types ∅ with
  | Except.error e => Except.error e
  | Except.ok g1 => processColdefs ext headers row iri spec.columns g1

/-- Embedding of `convert.process_row`; the Template Synthesizer
(`templated_expressions`, an external rendering plus the `prune` pass)
is passed in as `templ`. -/
def process_row (ext : Externals)
    (templ : List String → List String → Except String RGraph)
    (row : List String) (idcol : Option Nat) (headers : List String)
    (ns : Option String) (spec : Spec) : Except String RGraph :=
  let fromCols : Except String RGraph :=
    if !spec.columns.isEmpty then
      match get_iri_for_row ext row idcol ns with
      | Except.error e => Except.error e
      | Except.ok iri =>
        match row_to_graph ext headers spec iri row with
        | Except.error e => Except.error e
        | Except.ok gg => Except.ok ((∅ : RGraph) ∪ gg)
    else Except.ok ∅
  match fromCols with
  | Except.error e => Except.error e
  | Except.ok g1 =>
    if optStrTruthy spec.template then
      match templ headers row with
      | Except.error e => Except.error e
      | Except.ok gg => Except.ok (g1 ∪ gg)
    else Except.ok g1

/-!
Run-level structure of `convert` and of the configuration pipeline.
The worker pool is modelled sequentially: the Statement-Set union the
coordinator computes is the same for every arrival order, and the
claims about run structure (what happens before any data row is
dispatched) depend only on the sequential skeleton of the code.
-/

/-- Embedding of `convert.get_id_column`: `None` when no identifier is
configured, the header position otherwise, a `ValueError` naming the
column when `headers.index` fails. -/
def get_id_column (headers : List String) (identifier : Option String) :
    Except String (Option Nat) :=
  match identifier with
  | none => Except.ok none
  | some idname =>
    match headers.indexOf? idname with
    | some i => Except.ok (some i)
    | none => Except.error ("Column " ++ idname ++ " does not exist")

/-- The result-consumption loop of `convert` without chunking: each
data row is dispatched to `process_row` and its graph unioned into the
accumulator.  The second component counts the data rows dispatched, so
that error-ordering claims can observe it. -/
def convertRows (ext : Externals)
    (templ : List String → List String → Except String RGraph)
    (spec : Spec) (idcol : Option Nat) (headers : List String) :
    List (List String) → RGraph → Except String RGraph × Nat
  | [], g => (Except.ok g, 0)
  | r :: rs, g =>
    match process_row ext templ r idcol headers spec.nspace spec with
    | Except.error e => (Except.error e, 1)
    | Except.ok gg =>
      let res := convertRows ext templ spec idcol headers rs (g ∪ gg)
      (res.1, res.2 + 1)

/-- Row-processing skeleton of `convert`: the header row is consumed,
then `get_id_column` runs, and only then are data rows dispatched to
the worker pool.  A `ValueError` from `get_id_column` escapes before
any data row is dispatched. -/
def convertRun (ext : Externals)
    (templ : List String → List String → Except String RGraph)
    (spec : Spec) (fileRows : List (List String)) : Except String RGraph × Nat :=
  match fileRows with
  | [] => (Except.error "StopIteration", 0)
  | headers :: dataRows =>
    match get_id_column headers spec.identifier with
    | Except.error e => (Except.error e, 0)
    | Except.ok idcol => convertRows ext templ spec idcol headers dataRows ∅

/-- The cross-field assertion at the end of
`utils.parse_config_from_yaml`: Column Rules present requires a truthy
`identifier` (the code raises `AssertionError`, or `KeyError` when the
merge dropped the falsy `identifier` key; both are fatal). -/
def checkColumnsHaveIdentifier (spec : Spec) : Except String Spec :=
  if !spec.columns.isEmpty ∧ optStrTruthy spec.identifier = false then
    Except.error "If column specs are given, you must specify the id column as the identifier"
  else Except.ok spec

/-- The program pipeline of `__main__.main`: configuration resolution
(whose last step is the cross-field assertion) runs to completion
before `convert` is called; a resolution failure therefore reports
before any data row is read.  The second component again counts data
rows dispatched. -/
def runPipeline (ext : Externals)
    (templ : List String → List String → Except String RGraph)
    (spec : Spec) (fileRows : List (List String)) : Except String RGraph × Nat :=
  match checkColumnsHaveIdentifier spec with
  | Except.error e => (Except.error e, 0)
  | Except.ok s => convertRun ext templ s fileRows

/-!
The chunk-writing loop of `convert` (lines 301 to 341), abstracted
over the statement type and over `approx_size_of`.  Each element of
`rows` is the Statement Set one worker returned for one data row; the
returned list holds the contents of the serialized chunk files in
order.  When the row counter reaches `limit` the accumulator is
serialized and the loop breaks; otherwise, every
`sizeCheckFrequency`-th row the estimated size is compared with
`maxGraphSizeMb` and on breach the accumulator is serialized and
reset.  Nothing is serialized after the loop ends by exhausting the
iterator.
-/

def convertLoop {α : Type} [DecidableEq α] (size : Finset α → Nat)
    (maxMb : Option Nat) (freq limit : Nat) :
    List (Finset α) → Finset α → Nat → List (Finset α)
  | [], _, _ => []
  | r :: rest, g, i =>
    let g2 := g ∪ r
    let i2 := i + 1
    if limit ≤ i2 then [g2]
    else
      match maxMb with
      | some m =>
        if i2 % freq = 0 ∧ m < size g2 then
          g2 :: convertLoop size maxMb freq limit rest ∅ i2
        else convertLoop size maxMb freq limit rest g2 i2
      | none => convertLoop size maxMb freq limit rest g2 i2

/-- Embedding of `convert`'s chunk accounting: the effective limit is
the number of data rows when the user limit is non-positive or larger
than the input, and the loop starts with an empty accumulator and the
row counter at zero. -/
def convert {α : Type} [DecidableEq α] (size : Finset α → Nat)
    (maxMb : Option Nat) (freq : Nat) (userLimit : Int)
    (rows : List (Finset α)) : List (Finset α) :=
  let total : Int := rows.length
  let limit : Nat :=
    if userLimit ≤ 0 ∨ total < userLimit then rows.length else userLimit.toNat
  convertLoop size maxMb freq limit rows ∅ 0

/-- Union of a list of Statement Sets. -/
def bigUnion {α : Type} [DecidableEq α] (l : List (Finset α)) : Finset α :=
  l.foldr (fun a b => a ∪ b) ∅

/-!
Template rendering context (`templated_expressions` lines 190 to 196,
`custom_functions.load_custom_functions`).  Dictionaries are
association lists in insertion order; `dictUpdate` is Python
`dict.update` (replace in place or append).  The globals dict receives
first the custom functions, then every binding of the `builtins`
namespace (in a module that is not `__main__`, `__builtins__` is the
builtins module's dict, so `dict.update` accepts it).
-/

section TemplateGlobals

variable {V : Type}

def setKey (d : List (String × V)) (k : String) (v : V) : List (String × V) :=
  match d with
  | [] => [(k, v)]
  | p :: rest => if p.1 = k then (k, v) :: rest else p :: setKey rest k v

def dictUpdate (d upd : List (String × V)) : List (String × V) :=
  match upd with
  | [] => d
  | (k, v) :: rest => dictUpdate (setKey d k v) rest

def lookupKey (d : List (String × V)) (k : String) : Option V :=
  match d with
  | [] => none
  | p :: rest => if p.1 = k then some p.2 else lookupKey rest k

/-- The globals dict of the rendered template after
`template.globals.update(custom_functions)` and
`template.globals.update(__builtins__)`. -/
def templateGlobals (base customFns builtins : List (String × V)) :
    List (String × V) :=
  dictUpdate (dictUpdate base customFns) builtins

end TemplateGlobals

/-!
Concrete stand-ins for the external collaborators, used by the closed
evaluation theorems: `validIri` accepts everything (the inputs used
are ordinary IRIs), `uuid5` is an abstract deterministic function,
`parseDate` fails (as `strptime` does on the non-date inputs used),
`regexSplit` is unused by those inputs.
-/

def extStub : Externals :=
  { validIri := fun _ => true
    uuid5 := fun s => s ++ "-uuid"
    parseDate := fun _ _ => none
    regexSplit := fun _ c => [c] }

def templStub : List String → List String → Except String RGraph :=
  fun _ _ => Except.ok ∅

/-!
Lemmas and claim theorems.
-/

theorem lookupVal_merge_eq_none (base : List (String × Val)) (k : String) :
    ∀ new : List (String × Val), (∀ p ∈ new, p.1 ≠ k) →
      lookupVal (merge base new) k = none := by
  intro new
  induction new with
  | nil => intro _; rfl
  | cons p rest ih =>
    intro h
    obtain ⟨k0, nv⟩ := p
    have hk0 : k0 ≠ k := h (k0, nv) (List.mem_cons_self _ _)
    have hrest : ∀ q ∈ rest, q.1 ≠ k := fun q hq => h q (List.mem_cons_of_mem _ hq)
    rw [merge]
    cases hmo : mergeOne base k0 nv with
    | none => exact ih hrest
    | some v => simp only [lookupVal, hk0, if_neg hk0]; exact ih hrest

theorem lookupVal_merge (base : List (String × Val)) (k : String) :
    ∀ new : List (String × Val), (new.map Prod.fst).Nodup →
      lookupVal (merge base new) k = mergeSpec base new k := by
  intro new
  induction new with
  | nil => intro _; rfl
  | cons p rest ih =>
    intro hnd
    obtain ⟨k0, nv⟩ := p
    rw [List.map_cons, List.nodup_cons] at hnd
    obtain ⟨hk0nmem, hndrest⟩ := hnd
    by_cases hkk : k0 = k
    · subst hkk
      have hrest : ∀ q ∈ rest, q.1 ≠ k0 := by
        intro q hq hq1
        have hq2 : q.1 ∈ rest.map Prod.fst := List.mem_map_of_mem Prod.fst hq
        rw [hq1] at hq2
        exact hk0nmem hq2
      rw [merge]
      cases hmo : mergeOne base k0 nv with
      | none =>
        rw [lookupVal_merge_eq_none base k0 rest hrest]
        simp [mergeSpec, lookupVal, hmo]
      | some v =>
        simp [mergeSpec, lookupVal, hmo]
    · rw [merge]
      have hspec : mergeSpec base ((k0, nv) :: rest) k = mergeSpec base rest k := by
        simp [mergeSpec, lookupVal, hkk]
      cases hmo : mergeOne base k0 nv with
      | none => rw [ih hndrest, hspec]
      | some v =>
        simp only [lookupVal, if_neg hkk]
        rw [ih hndrest, hspec]

/-- C2, counterexample.  The claim requires that a key absent from the
later-merged fragment keeps the earlier fragment's value; `merge`
iterates only over the later fragment's items, so the earlier
fragment's binding of `a` (the truthy value 1) is dropped and the
merged result is empty. -/
theorem C2_counterexample_base_key_dropped :
    merge [("a", Val.vint 1)] [] = [] := rfl

/-- C2, amended: for fragments with duplicate-free keys (as Python
dicts are), the merged result binds a key exactly as `mergeSpec`
describes: keys absent from the later fragment are dropped; for keys
of the later fragment, two dictionaries merge recursively, otherwise
the later value wins when truthy, else the earlier value when truthy,
else the key is dropped. -/
theorem C2_merge_per_key (base new : List (String × Val)) (k : String)
    (hnd : (new.map Prod.fst).Nodup) :
    lookupVal (merge base new) k = mergeSpec base new k :=
  lookupVal_merge base k new hnd

/-- C2, witness for the amended theorem at concrete fragments. -/
theorem C2_merge_per_key_witness :
    ([("a", Val.vint 2), ("b", Val.vint 0)].map Prod.fst).Nodup ∧
      lookupVal (merge [("a", Val.vint 1), ("c", Val.vint 3)]
          [("a", Val.vint 2), ("b", Val.vint 0)]) "a" =
        mergeSpec [("a", Val.vint 1), ("c", Val.vint 3)]
          [("a", Val.vint 2), ("b", Val.vint 0)] "a" :=
  ⟨by simp, C2_merge_per_key _ _ "a" (by simp)⟩

theorem pruneBnodes_eq_self {g : RGraph} (h : emptyBnodeTriples g = ∅) :
    pruneBnodes g = g := by
  rw [pruneBnodes]
  simp [h]

theorem pruneBnodes_subset (g : RGraph) : pruneBnodes g ⊆ g := by
  induction g using pruneBnodes.induct with
  | case1 g h => rw [pruneBnodes_eq_self h]
  | case2 g h ih =>
    rw [pruneBnodes]
    simp only [h, dite_false]
    exact ih.trans (Finset.sdiff_subset)

theorem emptyBnodeTriples_pruneBnodes (g : RGraph) :
    emptyBnodeTriples (pruneBnodes g) = ∅ := by
  induction g using pruneBnodes.induct with
  | case1 g h => rw [pruneBnodes_eq_self h]; exact h
  | case2 g h ih =>
    rw [pruneBnodes]
    simp only [h, dite_false]
    exact ih

/-- C4: the Template Synthesizer's post-parse pruning pass is
idempotent.  After one pass no statement has an empty-string object,
none mentions the sentinel IRI, and the blank-node loop has reached
its fixed point, so a second pass removes nothing. -/
theorem C4_prune_idempotent (g : RGraph) : prune (prune g) = prune g := by
  have hsub : prune g ⊆ pruneNull (pruneEmptyLiterals g) := pruneBnodes_subset _
  have h1 : pruneEmptyLiterals (prune g) = prune g := by
    apply Finset.filter_true_of_mem
    intro t ht
    have ht1 : t ∈ pruneNull (pruneEmptyLiterals g) := hsub ht
    have ht2 : t ∈ pruneEmptyLiterals g := Finset.filter_subset _ _ ht1
    exact (Finset.mem_filter.mp ht2).2
  have h2 : pruneNull (prune g) = prune g := by
    apply Finset.filter_true_of_mem
    intro t ht
    exact (Finset.mem_filter.mp (hsub ht)).2
  have h3 : pruneBnodes (prune g) = prune g :=
    pruneBnodes_eq_self (emptyBnodeTriples_pruneBnodes _)
  show pruneBnodes (pruneNull (pruneEmptyLiterals (prune g))) = prune g
  rw [h1, h2, h3]

theorem bigUnion_nil {α : Type} [DecidableEq α] : bigUnion ([] : List (Finset α)) = ∅ := rfl

theorem bigUnion_cons {α : Type} [DecidableEq α] (a : Finset α) (l : List (Finset α)) :
    bigUnion (a :: l) = a ∪ bigUnion l := rfl

theorem convertLoop_bigUnion {α : Type} [DecidableEq α] (size : Finset α → Nat)
    (maxMb : Option Nat) (freq : Nat) :
    ∀ (rows : List (Finset α)) (g : Finset α) (i limit : Nat),
      i < limit → limit ≤ i + rows.length →
      bigUnion (convertLoop size maxMb freq limit rows g i) =
        g ∪ bigUnion (rows.take (limit - i)) := by
  intro rows
  induction rows with
  | nil =>
    intro g i limit h1 h2
    simp only [List.length_nil, Nat.add_zero] at h2
    omega
  | cons r rest ih =>
    intro g i limit h1 h2
    rw [convertLoop.eq_def]
    simp only []
    by_cases hlim : limit ≤ i + 1
    · have hli : limit - i = 1 := by omega
      rw [if_pos hlim, hli]
      simp [bigUnion_cons, bigUnion_nil, Finset.union_assoc]
    · rw [if_neg hlim]
      have h1a : i + 1 < limit := by omega
      have h2a : limit ≤ i + 1 + rest.length := by
        simp only [List.length_cons] at h2; omega
      have htake : (r :: rest).take (limit - i) = r :: rest.take (limit - (i + 1)) := by
        have : limit - i = (limit - (i + 1)) + 1 := by omega
        rw [this, List.take_succ_cons]
      cases maxMb with
      | none =>
        dsimp only
        rw [ih (g ∪ r) (i + 1) limit h1a h2a, htake]
        simp [bigUnion_cons, Finset.union_assoc]
      | some m =>
        dsimp only
        by_cases hbr : (i + 1) % freq = 0 ∧ m < size (g ∪ r)
        · rw [if_pos hbr, bigUnion_cons, ih ∅ (i + 1) limit h1a h2a, htake]
          simp [bigUnion_cons, Finset.union_assoc]
        · rw [if_neg hbr, ih (g ∪ r) (i + 1) limit h1a h2a, htake]
          simp [bigUnion_cons, Finset.union_assoc]

/-- Effective limit computed at the top of `convert`. -/
theorem convert_limit_bounds {α : Type} [DecidableEq α] (userLimit : Int)
    (rows : List (Finset α)) (hrows : rows ≠ []) :
    0 < (if userLimit ≤ 0 ∨ (rows.length : Int) < userLimit then rows.length
         else userLimit.toNat) ∧
      (if userLimit ≤ 0 ∨ (rows.length : Int) < userLimit then rows.length
       else userLimit.toNat) ≤ rows.length := by
  have hlen : 0 < rows.length := List.length_pos.mpr hrows
  by_cases hc : userLimit ≤ 0 ∨ (rows.length : Int) < userLimit
  · rw [if_pos hc]; exact ⟨hlen, le_refl _⟩
  · rw [if_neg hc]
    push_neg at hc
    obtain ⟨hpos, hle⟩ := hc
    constructor
    · omega
    · omega

/-- C3, counterexample.  Two rows each contributing the same two
statements, `maxGraphSizeMb = 1`, `sizeCheckFrequency = 1`: the first
chunk is flushed on breach and the accumulator reset, so the second
chunk repeats both statements.  The chunk files hold 2 + 2 = 4
statements while the unchunked run holds 2: the sums differ, so
chunking can duplicate statements across chunk boundaries. -/
theorem C3_counterexample_duplicate_across_chunks :
    ((convert Finset.card (some 1) 1 0 [({0, 1} : Finset ℕ), {0, 1}]).map Finset.card).sum ≠
      ((convert Finset.card none 1 0 [({0, 1} : Finset ℕ), {0, 1}]).map Finset.card).sum := by
  decide

/-- C3, amended: chunking neither drops statements nor invents new
ones — the union of the statement sets of all emitted chunk files
equals the union for an unchunked run over the same input (the
statement counts need not agree, because a statement emitted by rows
on both sides of a chunk boundary is serialized once per chunk while
the unchunked accumulator deduplicates it). -/
theorem C3_chunk_union_eq_unchunked {α : Type} [DecidableEq α]
    (size : Finset α → Nat) (maxMb : Option Nat) (freq : Nat) (userLimit : Int)
    (rows : List (Finset α)) :
    bigUnion (convert size maxMb freq userLimit rows) =
      bigUnion (convert size none freq userLimit rows) := by
  cases hrows : rows with
  | nil => rfl
  | cons r rest =>
    rw [← hrows]
    have hne : rows ≠ [] := by rw [hrows]; exact List.cons_ne_nil r rest
    obtain ⟨hpos, hle⟩ := convert_limit_bounds userLimit rows hne
    unfold convert
    rw [convertLoop_bigUnion size maxMb freq rows ∅ 0 _ hpos (by omega),
      convertLoop_bigUnion size none freq rows ∅ 0 _ hpos (by omega)]

theorem convertLoop_breach_chunks {α : Type} [DecidableEq α] (size : Finset α → Nat)
    (m freq : Nat) :
    ∀ (rows : List (Finset α)) (g : Finset α) (i limit : Nat),
      i < limit → limit ≤ i + rows.length →
      convertLoop size (some m) freq limit rows g i ≠ [] ∧
        ∀ c ∈ (convertLoop size (some m) freq limit rows g i).dropLast, m < size c := by
  intro rows
  induction rows with
  | nil =>
    intro g i limit h1 h2
    simp only [List.length_nil, Nat.add_zero] at h2
    omega
  | cons r rest ih =>
    intro g i limit h1 h2
    rw [convertLoop.eq_def]
    dsimp only
    by_cases hlim : limit ≤ i + 1
    · rw [if_pos hlim]
      refine ⟨List.cons_ne_nil _ _, ?_⟩
      intro c hc
      simp [List.dropLast] at hc
    · rw [if_neg hlim]
      have h1a : i + 1 < limit := by omega
      have h2a : limit ≤ i + 1 + rest.length := by
        simp only [List.length_cons] at h2; omega
      by_cases hbr : (i + 1) % freq = 0 ∧ m < size (g ∪ r)
      · rw [if_pos hbr]
        obtain ⟨hne, hall⟩ := ih ∅ (i + 1) limit h1a h2a
        refine ⟨List.cons_ne_nil _ _, ?_⟩
        intro c hc
        cases hrec : convertLoop size (some m) freq limit rest ∅ (i + 1) with
        | nil => exact absurd hrec hne
        | cons x xs =>
          rw [hrec, List.dropLast_cons₂] at hc
          rcases List.mem_cons.mp hc with hceq | hctail
          · rw [hceq]; exact hbr.2
          · exact hall c (by rw [hrec]; exact hctail)
      · rw [if_neg hbr]
        exact ih (g ∪ r) (i + 1) limit h1a h2a

/-- C5, counterexample.  With `maxGraphSizeMb = 1` and
`sizeCheckFrequency = 1`, the chunk flushed on the size-threshold
breach holds 2 statements — the size estimate at flush time was 2,
which is not below the threshold 1: a breach flush happens exactly
when the estimate has already exceeded the threshold. -/
theorem C5_counterexample_breach_chunk_not_below :
    (convert Finset.card (some 1) 1 0 [({0, 1} : Finset ℕ), {0, 1}]).dropLast =
        [({0, 1} : Finset ℕ)] ∧
      ¬ Finset.card ({0, 1} : Finset ℕ) < 1 := by
  decide

/-- C5, amended: every chunk flushed on a size-threshold breach had an
estimated accumulated size strictly greater than `maxGraphSizeMb` at
the time it was flushed (the check fires every `sizeCheckFrequency`
rows and flushes only once the estimate exceeds the threshold), and
after end-of-input (or the row limit) the remainder is written as a
final chunk even when below the threshold. -/
theorem C5_breach_chunks_above_threshold {α : Type} [DecidableEq α]
    (size : Finset α → Nat) (m freq : Nat) (userLimit : Int)
    (rows : List (Finset α)) (hrows : rows ≠ []) :
    convert size (some m) freq userLimit rows ≠ [] ∧
      ∀ c ∈ (convert size (some m) freq userLimit rows).dropLast, m < size c := by
  obtain ⟨hpos, hle⟩ := convert_limit_bounds userLimit rows hrows
  unfold convert
  exact convertLoop_breach_chunks size m freq rows ∅ 0 _ hpos (by omega)

/-- C5, witness for the amended theorem on a concrete run: two rows of
two fresh statements each, threshold 1, check frequency 1. -/
theorem C5_breach_chunks_above_threshold_witness :
    ([({0, 1} : Finset ℕ), {2, 3}] ≠ []) ∧
      (convert Finset.card (some 1) 1 0 [({0, 1} : Finset ℕ), {2, 3}] ≠ [] ∧
        ∀ c ∈ (convert Finset.card (some 1) 1 0
            [({0, 1} : Finset ℕ), {2, 3}]).dropLast, 1 < Finset.card c) :=
  ⟨by decide, C5_breach_chunks_above_threshold Finset.card 1 1 0 _ (by decide)⟩

theorem processValues_literal (ext : Externals) (dt : Option String) :
    ∀ vs : List String,
      processValues ext false dt none none false false none none vs =
        Except.ok ((vs.filter (fun v => pyTrim v != "")).map
          (fun v => Node.lit (pyTrim v) dt), ∅) := by
  intro vs
  induction vs with
  | nil => rfl
  | cons v vs ih =>
    by_cases h : pyTrim v = ""
    · simp [processValues, processColValue, h, ih]
    · simp [processValues, processColValue, h, ih]

/-- C6, counterexample.  A Column Rule with literal separator `;` and
a configured date-parse pattern, on the cell `" x "`: the single
candidate `"x"` survives trimming, yet `strptime` fails on it, the
value is skipped, and the rule emits nothing — so a surviving
candidate does not always yield exactly one emitted value, contrary to
the claim. -/
theorem C6_counterexample_date_parse_failure_skips_survivor :
    get_col_values extStub " x " (some ";") false false none (some "%Y-%m-%d")
        none false false none none = Except.ok ([], ∅) ∧
      ¬ pyTrim " x " = "" := by
  exact ⟨rfl, by decide⟩

/-- C6, amended: for a Column Rule with a literal (non-regex)
separator the cell is split on the separator and each candidate
trimmed; a candidate that is empty or whitespace-only after trimming
yields no literal and no IRI (whatever the other rule flags are, and
an all-whitespace cell yields nothing at all); each surviving
candidate yields exactly one literal — unless a configured date-parse
pattern fails on it, in which case that candidate is skipped
non-fatally, or IRI minting fails, which is fatal.  In particular the
cell `"a;b;;c"` with separator `";"` yields exactly the three literals
`a`, `b`, `c`. -/
theorem C6_literal_separator_split_trim_drop :
    (∀ (ext : Externals) (col s : String) (dt : Option String),
      s ≠ "" → ¬ pyTrim col = "" →
      get_col_values ext col (some s) false false dt none none false false none none =
        Except.ok (((pySplit col s).filter (fun v => pyTrim v != "")).map
          (fun v => Node.lit (pyTrim v) dt), ∅)) ∧
    (∀ (ext : Externals) (regex asIri asUuid ignoreCase : Bool)
        (dt ds ns lb ty sep : Option String) (col : String),
      pyTrim col = "" →
      get_col_values ext col sep regex asIri dt ds ns asUuid ignoreCase lb ty =
        Except.ok ([], ∅)) ∧
    (∀ (ext : Externals) (asIri : Bool) (dt ds ns lb ty : Option String)
        (asUuid ignoreCase : Bool) (v : String),
      pyTrim v = "" →
      processColValue ext asIri dt ds ns asUuid ignoreCase lb ty v =
        Except.ok (none, ∅)) ∧
    (∀ (ext : Externals) (dt : Option String),
      get_col_values ext "a;b;;c" (some ";") false false dt none none false false none none =
        Except.ok ([Node.lit "a" dt, Node.lit "b" dt, Node.lit "c" dt], ∅)) := by
  refine ⟨?_, ?_, ?_, ?_⟩
  · intro ext col s dt hs hcol
    rw [get_col_values, if_neg hcol]
    simp only [if_neg, hs, ite_true, Bool.false_eq_true, if_false]
    rw [if_pos hs]
    exact processValues_literal ext dt (pySplit col s)
  · intro ext regex asIri asUuid ignoreCase dt ds ns lb ty sep col hcol
    simp [get_col_values, hcol]
  · intro ext asIri dt ds ns lb ty asUuid ignoreCase v hv
    simp [processColValue, hv]
  · intro ext dt
    have h := processValues_literal ext dt (pySplit "a;b;;c" ";")
    have hfil : (pySplit "a;b;;c" ";").filter (fun v => pyTrim v != "") =
        ["a", "b", "c"] := by decide
    have h1 : pyTrim "a" = "a" := by decide
    have h2 : pyTrim "b" = "b" := by decide
    have h3 : pyTrim "c" = "c" := by decide
    have hne : ¬ pyTrim "a;b;;c" = "" := by decide
    simp only [get_col_values, if_neg hne]
    rw [if_pos (by decide : (";" : String) ≠ "")]
    rw [if_neg (by decide : ¬ (false = true))]
    rw [h, hfil]
    simp [h1, h2, h3]

/-- C6, witness for the amended theorem at the scenario inputs. -/
theorem C6_literal_separator_split_trim_drop_witness :
    ((";" : String) ≠ "" ∧ ¬ pyTrim "a;b;;c" = "" ∧
      get_col_values extStub "a;b;;c" (some ";") false false none none none false false none none =
        Except.ok (((pySplit "a;b;;c" ";").filter (fun v => pyTrim v != "")).map
          (fun v => Node.lit (pyTrim v) none), ∅)) ∧
    (pyTrim "   " = "" ∧
      get_col_values extStub "   " (some ";") true true none none none true true none none =
        Except.ok ([], ∅)) :=
  ⟨⟨by decide, by decide,
      C6_literal_separator_split_trim_drop.1 extStub "a;b;;c" ";" none (by decide) (by decide)⟩,
    ⟨by decide,
      C6_literal_separator_split_trim_drop.2.1 extStub true true true true none none none
        none none (some ";") "   " (by decide)⟩⟩

/-- Concrete resolved spec used to evaluate the empty-identifier-cell
behaviour: identifier column `id`, one Column Rule on column `name`,
one declared type. -/
def specC1 : Spec :=
  { identifier := some "id"
    columns := [{ column := "name", predicate := "http://example.org/name"
                  datatype := some "http://www.w3.org/2001/XMLSchema#string"
                  datestr := none, separator := none, regex := false
                  asIri := false, nspace := none, asUuid := false
                  ignoreCase := false, label := none, ttype := none }]
    types := ["http://example.org/Thing"]
    template := none
    nspace := some "http://example.org/ns/"
    maxGraphSizeMb := none
    sizeCheckFrequency := 30000 }

/-- C1: evaluation of the code at the failing input.  On the row
`["", "Alice"]` whose identifier cell is empty, `get_iri_for_row`
returns `None`, and `row_to_graph` then passes that `None` as the
subject of `Graph.add`, which raises (rdflib asserts every term is a
Node) — so, contrary to the claim, the row is rejected and the run
aborts instead of continuing with no emitted statements. -/
theorem C1_empty_identifier_cell_aborts :
    process_row extStub templStub ["", "Alice"] (some 0) ["id", "name"]
        (some "http://example.org/ns/") specC1 =
      Except.error "Subject None must be an rdflib term" := rfl

/-- Concrete spec with a Column Rule but no identifier, for the C7
witness. -/
def specC7 : Spec :=
  { identifier := none
    columns := [{ column := "name", predicate := "http://example.org/name"
                  datatype := none, datestr := none, separator := none
                  regex := false, asIri := false, nspace := none
                  asUuid := false, ignoreCase := false, label := none
                  ttype := none }]
    types := []
    template := none
    nspace := none
    maxGraphSizeMb := none
    sizeCheckFrequency := 30000 }

/-- C7: a resolved specification with at least one Column Rule but no
truthy identifier makes configuration resolution fail fatally (the
assertion at the end of `parse_config_from_yaml`), and the pipeline
reports it having dispatched zero data rows — resolution runs before
`convert` ever opens the input. -/
theorem C7_columns_require_identifier (ext : Externals)
    (templ : List String → List String → Except String RGraph)
    (spec : Spec) (fileRows : List (List String))
    (hcols : spec.columns ≠ []) (hid : optStrTruthy spec.identifier = false) :
    runPipeline ext templ spec fileRows =
      (Except.error "If column specs are given, you must specify the id column as the identifier",
        0) := by
  have hC : spec.columns.isEmpty = false := by
    cases h : spec.columns with
    | nil => exact absurd h hcols
    | cons a l => rfl
  simp [runPipeline, checkColumnsHaveIdentifier, hC, hid]

/-- C7, witness at a concrete spec and input file. -/
theorem C7_columns_require_identifier_witness :
    specC7.columns ≠ [] ∧ optStrTruthy specC7.identifier = false ∧
      runPipeline extStub templStub specC7 [["id", "name"], ["1", "Alice"]] =
        (Except.error "If column specs are given, you must specify the id column as the identifier",
          0) :=
  ⟨by simp [specC7], rfl,
    C7_columns_require_identifier extStub templStub specC7 _ (by simp [specC7]) rfl⟩

theorem get_uuid_wf (uuid5 : String → String) (cache : UuidCache) (v : String)
    (h : WfCache uuid5 cache) : (get_uuid uuid5 cache v).1 = uuid5 v := by
  unfold get_uuid
  cases hf : cache.find? (fun p => p.1 == v) with
  | none => rfl
  | some p =>
    have hmem : p ∈ cache := List.mem_of_find?_eq_some hf
    have hpred := List.find?_some hf
    simp only [beq_iff_eq] at hpred
    simp [h p hmem, hpred]

/-- C8: with a subject namespace configured and `as_uuid` set, the
minted IRI is a pure function of the value and the namespace.  Two
invocations running against different (well-formed) memoisation cache
states — as repeated runs or distinct worker processes have — produce
the same IRI, which also equals the cache-free minting used in
`get_col_values`. -/
theorem C8_minted_iri_cache_independent (ext : Externals) (c1 c2 : UuidCache)
    (v ns : String) (ic : Bool)
    (h1 : WfCache ext.uuid5 c1) (h2 : WfCache ext.uuid5 c2) :
    (mintNamespacedIriCached ext c1 v ns true ic).1 =
        (mintNamespacedIriCached ext c2 v ns true ic).1 ∧
      (mintNamespacedIriCached ext c1 v ns true ic).1 =
        mintNamespacedIri ext v ns true ic := by
  have e1 := get_uuid_wf ext.uuid5 c1 (if ic then v.toLower else v) h1
  have e2 := get_uuid_wf ext.uuid5 c2 (if ic then v.toLower else v) h2
  constructor <;> simp [mintNamespacedIriCached, mintNamespacedIri, e1, e2]

/-- C8, witness: a worker with a warm cache and a worker with a cold
cache mint the same IRI for the same value and namespace. -/
theorem C8_minted_iri_cache_independent_witness :
    WfCache extStub.uuid5 [("a", "a-uuid")] ∧ WfCache extStub.uuid5 [] ∧
      (mintNamespacedIriCached extStub [("a", "a-uuid")] "a" "http://example.org/" true false).1 =
          (mintNamespacedIriCached extStub [] "a" "http://example.org/" true false).1 ∧
        (mintNamespacedIriCached extStub [("a", "a-uuid")] "a" "http://example.org/" true false).1 =
          mintNamespacedIri extStub "a" "http://example.org/" true false :=
  ⟨(by intro p hp; simp at hp; rw [hp]; rfl),
    (by intro p hp; cases hp),
    (C8_minted_iri_cache_independent extStub [("a", "a-uuid")] [] "a" "http://example.org/" false
      (by intro p hp; simp at hp; rw [hp]; rfl)
      (by intro p hp; cases hp))⟩

theorem indexOf?_eq_none_of_not_mem (l : List String) (a : String) (h : a ∉ l) :
    l.indexOf? a = none := by
  rw [List.indexOf?_eq_none_iff]
  intro x hx
  simp only [beq_iff_eq]
  intro hxa
  exact h (hxa ▸ hx)

/-- C9: when the configured identifier column does not occur in the
input file's header row, `convert` fails with a `ValueError` naming
the missing column, raised by `get_id_column` right after the header
is consumed — before any data row is dispatched to a worker (the
dispatched-row count of the run is zero). -/
theorem C9_missing_identifier_column (ext : Externals)
    (templ : List String → List String → Except String RGraph)
    (spec : Spec) (headers : List String) (dataRows : List (List String))
    (c : String) (hid : spec.identifier = some c) (hmem : c ∉ headers) :
    convertRun ext templ spec (headers :: dataRows) =
      (Except.error ("Column " ++ c ++ " does not exist"), 0) := by
  simp [convertRun, get_id_column, hid, indexOf?_eq_none_of_not_mem headers c hmem]

/-- Concrete spec whose identifier column is absent from the header,
for the C9 witness. -/
def specC9 : Spec :=
  { identifier := some "id"
    columns := []
    types := []
    template := none
    nspace := none
    maxGraphSizeMb := none
    sizeCheckFrequency := 30000 }

/-- C9, witness at a concrete header lacking the `id` column. -/
theorem C9_missing_identifier_column_witness :
    specC9.identifier = some "id" ∧ "id" ∉ ["a", "b"] ∧
      convertRun extStub templStub specC9 [["a", "b"], ["1", "2"]] =
        (Except.error ("Column " ++ "id" ++ " does not exist"), 0) :=
  ⟨rfl, by decide,
    C9_missing_identifier_column extStub templStub specC9 ["a", "b"] [["1", "2"]] "id"
      rfl (by decide)⟩

theorem lookupKey_setKey_self {V : Type} (d : List (String × V)) (k : String) (v : V) :
    lookupKey (setKey d k v) k = some v := by
  induction d with
  | nil => simp [setKey, lookupKey]
  | cons p rest ih =>
    by_cases h : p.1 = k
    · simp [setKey, h, lookupKey]
    · simp [setKey, h, lookupKey, ih]

theorem lookupKey_setKey_ne {V : Type} (d : List (String × V)) (k0 k : String) (v : V)
    (h : k0 ≠ k) : lookupKey (setKey d k0 v) k = lookupKey d k := by
  induction d with
  | nil => simp [setKey, lookupKey, h]
  | cons p rest ih =>
    by_cases hp : p.1 = k0
    · simp [setKey, hp, lookupKey, h]
    · simp [setKey, hp, lookupKey, ih]

theorem lookupKey_dictUpdate_not_mem {V : Type} (upd : List (String × V)) :
    ∀ (d : List (String × V)) (k : String), (∀ p ∈ upd, p.1 ≠ k) →
      lookupKey (dictUpdate d upd) k = lookupKey d k := by
  induction upd with
  | nil => intro d k _; rfl
  | cons p rest ih =>
    intro d k h
    obtain ⟨k0, v0⟩ := p
    have hk0 : k0 ≠ k := h (k0, v0) (List.mem_cons_self _ _)
    rw [dictUpdate]
    rw [ih (setKey d k0 v0) k (fun q hq => h q (List.mem_cons_of_mem _ hq))]
    exact lookupKey_setKey_ne d k0 k v0 hk0

theorem lookupKey_dictUpdate_mem {V : Type} (upd : List (String × V)) :
    ∀ (d : List (String × V)) (k : String) (v : V),
      (upd.map Prod.fst).Nodup → (k, v) ∈ upd →
      lookupKey (dictUpdate d upd) k = some v := by
  induction upd with
  | nil => intro d k v _ hmem; cases hmem
  | cons p rest ih =>
    intro d k v hnd hmem
    obtain ⟨k0, v0⟩ := p
    rw [List.map_cons, List.nodup_cons] at hnd
    obtain ⟨hk0, hndr⟩ := hnd
    rw [dictUpdate]
    rcases List.mem_cons.mp hmem with heq | hmemr
    · injection heq with hk hv
      subst hk
      subst hv
      have hknotin : ∀ q ∈ rest, q.1 ≠ k := by
        intro q hq hq1
        have hq2 : q.1 ∈ rest.map Prod.fst := List.mem_map_of_mem Prod.fst hq
        rw [hq1] at hq2
        exact hk0 hq2
      rw [lookupKey_dictUpdate_not_mem rest (setKey d k v) k hknotin]
      exact lookupKey_setKey_self d k v
    · exact ih (setKey d k0 v0) k v hndr hmemr

/-- C10: the rendering context of the statement template exposes, on
top of the custom functions loaded from the configured module, every
binding of the Python `builtins` namespace under its own name
(`template.globals.update(__builtins__)`; in an imported module such
as `rdfcon.convert`, `__builtins__` is the builtins module's dict).
Because the builtins update runs second, a custom function keeps its
binding only when no builtin shares its name. -/
theorem C10_template_globals_expose_builtins {V : Type}
    (base custom builtins : List (String × V)) :
    ((builtins.map Prod.fst).Nodup →
      ∀ k v, (k, v) ∈ builtins →
        lookupKey (templateGlobals base custom builtins) k = some v) ∧
    ((custom.map Prod.fst).Nodup →
      ∀ k v, (k, v) ∈ custom → (∀ q ∈ builtins, q.1 ≠ k) →
        lookupKey (templateGlobals base custom builtins) k = some v) := by
  constructor
  · intro hnd k v hmem
    exact lookupKey_dictUpdate_mem builtins (dictUpdate base custom) k v hnd hmem
  · intro hnd k v hmem hnb
    rw [templateGlobals, lookupKey_dictUpdate_not_mem builtins (dictUpdate base custom) k hnb]
    exact lookupKey_dictUpdate_mem custom base k v hnd hmem

/-- C10, witness with one custom function and one builtin. -/
theorem C10_template_globals_expose_builtins_witness :
    ((([("len", 2)] : List (String × Nat)).map Prod.fst).Nodup ∧
      lookupKey (templateGlobals ([] : List (String × Nat)) [("f", 1)] [("len", 2)]) "len" =
        some 2) ∧
    ((([("f", 1)] : List (String × Nat)).map Prod.fst).Nodup ∧
      lookupKey (templateGlobals ([] : List (String × Nat)) [("f", 1)] [("len", 2)]) "f" =
        some 1) :=
  ⟨⟨by decide,
      (C10_template_globals_expose_builtins [] [("f", 1)] [("len", 2)]).1 (by decide) "len" 2
        (by decide)⟩,
    ⟨by decide,
      (C10_template_globals_expose_builtins [] [("f", 1)] [("len", 2)]).2 (by decide) "f" 1
        (by decide) (by decide)⟩⟩

end Rdfcon
